import Mathlib

/-!
Verification of `images_to_pdf.py` (AniAggarwal/images-to-pdf).

The program is shallowly embedded: pixel buffers are lists of rationals
(cv2 uses floating point intermediates saturated to [0,255]; we model the
arithmetic exactly over ℚ, keeping the saturating clamp), the effectful
pipeline is modelled by explicit state passing over a small filesystem
state, with an event trace recording prompts and filesystem mutations and
a termination marker for `exit(0)`, raised exceptions and console input
exhaustion.  Each definition mirrors the like-named Python function.
-/

/-- Exceptions the program can raise.  `zeroDivisionError` is raised by the
`f = 131*(contrast+127)/(127*(131-contrast))` line when the denominator is
zero; the two `ValueError`s come from `check_valid_args`; `assemblerError`
stands for any exception escaping the external `img2pdf` assembler. -/
inductive Err
  | zeroDivisionError
  | valueErrorInvalidInput
  | valueErrorMissingInput
  | assemblerError
deriving DecidableEq

/-- How one run of the program (or of one of its functions) terminates:
normally, via `exit(code)`, with a propagating exception, or blocked
waiting on console input that the simulated input list no longer holds. -/
inductive Term
  | ok
  | exited (code : Nat)
  | raised (e : Err)
  | blocked
deriving DecidableEq

/-- Observable events of a run: an `input()` call showing the overwrite
prompt for a path, the "Operation canceled." print, and the filesystem
mutations (creating/unlinking the scratch path, writing a converted image,
writing the output PDF, recursively deleting the scratch directory). -/
inductive Event
  | promptOverwrite (path : String)
  | printCancel
  | mkdirScratch
  | unlinkScratch
  | writeTemp (name : String)
  | writeOutput (path : String)
  | rmtreeScratch
deriving DecidableEq

/-- State of the scratch path `input_dir/".images_to_pdf_temp"`: absent,
occupied by a non-directory file, or a directory holding the given file
names. -/
inductive ScratchState
  | absent
  | isFile
  | isDir (files : List String)
deriving DecidableEq

deriving instance DecidableEq for Except

/-- A pixel buffer: the flattened sequence of per-channel samples. -/
abbrev Buf := List ℚ

/-- Saturation to the 8-bit range `[0,255]`, as cv2's `saturate_cast`
applies after `addWeighted` (the integer rounding of the final cast is
abstracted away; the claims' formulas are stated with `clamp` only). -/
def clamp (x : ℚ) : ℚ := max 0 (min 255 x)

/-- Model of `cv2.addWeighted(src1, alpha, src2, beta, gamma)`: elementwise
`src1*alpha + src2*beta + gamma`, saturated to `[0,255]`. -/
def addWeighted (src1 : Buf) (alpha : ℚ) (src2 : Buf) (beta gamma : ℚ) : Buf :=
  List.zipWith (fun a b => clamp (a * alpha + b * beta + gamma)) src1 src2

/-- Embedding of `apply_brightness_contrast` (lines 25-49).  The brightness stage sets
`shadow`/`highlight` by the sign of `brightness` and calls `addWeighted`
with `beta = 0`; the contrast stage computes
`f = 131*(contrast+127) / (127*(131-contrast))`, a Python `/` on integers
that raises `ZeroDivisionError` when the denominator is zero. -/
def apply_brightness_contrast (input_img : Buf) (brightness : ℤ) (contrast : ℤ) :
    Except Err Buf :=
  let buf :=
    if brightness ≠ 0 then
      let shadow : ℤ := if brightness > 0 then brightness else 0
      let highlight : ℤ := if brightness > 0 then 255 else 255 + brightness
      let alpha_b : ℚ := ((highlight - shadow : ℤ) : ℚ) / 255
      let gamma_b : ℚ := ((shadow : ℤ) : ℚ)
      addWeighted input_img alpha_b input_img 0 gamma_b
    else
      input_img
  if contrast ≠ 0 then
    if (127 * (131 - contrast) : ℤ) = 0 then
      Except.error Err.zeroDivisionError
    else
      let f : ℚ := ((131 * (contrast + 127) : ℤ) : ℚ) / ((127 * (131 - contrast) : ℤ) : ℚ)
      let alpha_c : ℚ := f
      let gamma_c : ℚ := 127 * (1 - f)
      Except.ok (addWeighted buf alpha_c buf 0 gamma_c)
  else
    Except.ok buf

/-- The Tone Adjuster algorithm exactly as the specification's words state
it: brightness stage with `shadow = max(brightness,0)`,
`highlight = 255 + min(brightness,0)` and elementwise
`clamp(buffer*((highlight-shadow)/255) + shadow)`; contrast stage with
`f = 131*(contrast+127)/(127*(131-contrast))` and elementwise
`clamp(buffer'*f + 127*(1-f))`.  Used only to compare against
`apply_brightness_contrast`. -/
def adjust_spec (buffer : Buf) (brightness contrast : ℤ) : Buf :=
  let buf1 :=
    if brightness = 0 then buffer
    else
      let shadow : ℤ := max brightness 0
      let highlight : ℤ := 255 + min brightness 0
      buffer.map (fun v => clamp (v * (((highlight - shadow : ℤ) : ℚ) / 255) + ((shadow : ℤ) : ℚ)))
  if contrast = 0 then buf1
  else
    let f : ℚ := ((131 * (contrast + 127) : ℤ) : ℚ) / ((127 * (131 - contrast) : ℤ) : ℚ)
    buf1.map (fun v => clamp (v * f + 127 * (1 - f)))

/-- Whether `s` ends with `ext` (both as character lists). -/
def strEndsWith (s ext : String) : Bool :=
  s.toList.drop (s.toList.length - ext.toList.length) == ext.toList

/-- Python `str.lower()`, restricted to its ASCII action (the file names and
console answers the claims involve are ASCII). -/
def pyLower (s : String) : String := (s.toList.map Char.toLower).asString

/-- Python `str.strip()`: leading and trailing whitespace removed. -/
def pyStrip (s : String) : String :=
  (((s.toList.dropWhile Char.isWhitespace).reverse.dropWhile Char.isWhitespace).reverse).asString

/-- The composite `s.lower().strip()`, as the confirmation loops test console answers. -/
def lowerStrip (s : String) : String := pyStrip (pyLower s)

/-- Embedding of `get_img_name` (lines 52-67): `re.search("(.*)(\.png|\.jpg)$", name)`.
For (newline-free) file names this matches iff the name ends with the
case-sensitive suffix ".png" or ".jpg", and group 1 is everything before
the four-character extension. -/
def get_img_name (img_path : String) : Option String :=
  if strEndsWith img_path ".png" || strEndsWith img_path ".jpg" then
    some ((img_path.toList.take (img_path.toList.length - 4)).asString)
  else
    none

/-- Index of the last occurrence of a character in a list. -/
def rfindIdx (c : Char) : List Char → Option Nat
  | [] => none
  | a :: rest =>
    match rfindIdx c rest with
    | some i => some (i + 1)
    | none => if a = c then some 0 else none

/-- Model of `pathlib.Path.with_suffix(".pdf")`: within the final path component
(the part after the last `/`), the existing suffix — the part from the
last dot at index `i` with `0 < i < len(name)-1` — is replaced by `.pdf`;
a name with no such dot gets `.pdf` appended.  (Modelled for the ordinary
non-empty file names the program handles.) -/
def with_suffix_pdf (p : String) : String :=
  let cs := p.toList
  let nameStart : Nat :=
    match rfindIdx '/' cs with
    | some j => j + 1
    | none => 0
  let name := cs.drop nameStart
  let newName :=
    match rfindIdx '.' name with
    | some i =>
      if 0 < i ∧ i + 1 < name.length then name.take i ++ (".pdf").toList
      else name ++ (".pdf").toList
    | none => name ++ (".pdf").toList
  ((cs.take nameStart) ++ newName).asString

/-- Embedding of `get_output_path` (lines 70-82): `output_path.with_suffix(".pdf")`. -/
def get_output_path (output_path : String) : String := with_suffix_pdf output_path

/-- Writing a file into a directory: a fresh name is appended, an existing
name keeps its place (its content is overwritten). -/
def upsert (files : List String) (name : String) : List String :=
  if name ∈ files then files else files ++ [name]

/-- Writing a sequence of files in order. -/
def upsertAll (files : List String) (names : List String) : List String :=
  names.foldl upsert files

/-- The temp-file names the conversion loop writes for a list of directory
entries: one `<basename><suffix>.jpg` per entry accepted by
`get_img_name`, in directory order. -/
def tempNames (suf : String) (entries : List String) : List String :=
  (entries.filterMap get_img_name).map (fun name => name ++ suf ++ ".jpg")

/-- The overwrite-confirmation `while` loop (lines 107-118 and 153-164):
starting from the current value of `user_cont`, the loop exits (and the
caller proceeds) once `user_cont.lower().strip()` is `"y"` or `"n"` or
`user_cont` is the empty string; otherwise `input()` is called (one
`promptOverwrite` event per call, consuming one simulated input); an
answer whose `lower().strip()` is `"n"` prints "Operation canceled." and
calls `exit(0)` at once.  Running out of simulated inputs blocks. -/
def confirmLoop (path : String) (user_cont : String) (inputs : List String) :
    List Event × List String × Term :=
  if lowerStrip user_cont = "y" ∨ lowerStrip user_cont = "n" ∨ user_cont = "" then
    ([], inputs, Term.ok)
  else
    match inputs with
    | [] => ([Event.promptOverwrite path], [], Term.blocked)
    | ans :: rest =>
      if lowerStrip ans = "n" then
        ([Event.promptOverwrite path, Event.printCancel], rest, Term.exited 0)
      else
        let r := confirmLoop path ans rest
        (Event.promptOverwrite path :: r.1, r.2.1, r.2.2)

/-- A console answer on which the confirmation loop keeps re-prompting. -/
def invalidAnswer (s : String) : Prop :=
  lowerStrip s ≠ "y" ∧ lowerStrip s ≠ "n" ∧ s ≠ ""

instance (s : String) : Decidable (invalidAnswer s) := by
  unfold invalidAnswer
  infer_instance

/-- Embedding of `check_valid_args` (lines 151-174): if the supplied `output_path`
exists, run the confirmation loop; afterwards raise `ValueError` when
`imgs_path` is not a directory, then when it does not exist.  The
commented-out output-path validation (lines 172-174) does nothing. -/
def check_valid_args (files : List String) (imgs_is_dir imgs_exists : Bool)
    (output_path : String) (inputs : List String) : List Event × List String × Term :=
  let c :=
    if output_path ∈ files then confirmLoop output_path "_" inputs
    else ([], inputs, Term.ok)
  match c.2.2 with
  | Term.ok =>
    if imgs_is_dir = false then (c.1, c.2.1, Term.raised Err.valueErrorInvalidInput)
    else if imgs_exists = false then (c.1, c.2.1, Term.raised Err.valueErrorMissingInput)
    else (c.1, c.2.1, Term.ok)
  | t => (c.1, c.2.1, t)

/-- The `for img_path in input_dir.iterdir()` loop of `convert_imgs`
(lines 123-134): an entry rejected by `get_img_name` is skipped; for an
accepted entry the image is read (`imread` is the external cv2 decoder),
the Tone Adjuster is applied — a raised exception aborts the whole loop,
leaving the files written so far — and on success
`<basename><temp_suffix>.jpg` is written into the scratch directory. -/
def convertLoop (imread : String → Buf) (temp_suffix : String) (brightness contrast : ℤ) :
    List String → List String → List Event × List String × Term
  | files, [] => ([], files, Term.ok)
  | files, img :: rest =>
    match get_img_name img with
    | none => convertLoop imread temp_suffix brightness contrast files rest
    | some name =>
      match apply_brightness_contrast (imread img) brightness contrast with
      | Except.error e => ([], files, Term.raised e)
      | Except.ok _ =>
        let file_name := name ++ temp_suffix ++ ".jpg"
        let r := convertLoop imread temp_suffix brightness contrast (upsert files file_name) rest
        (Event.writeTemp file_name :: r.1, r.2.1, r.2.2)

/-- Result of `convert_imgs`: its event trace, the scratch path's state,
the remaining simulated console input, and how the call terminated. -/
structure ConvResult where
  events : List Event
  scratch : ScratchState
  inputs : List String
  term : Term
deriving DecidableEq

/-- Embedding of `convert_imgs` (lines 85-136) with `output_dir = None`, so the scratch
path is `input_dir/".images_to_pdf_temp"` (passed here as `scratch_path`).
`output_dir.mkdir(parents=True, exist_ok=True)` creates the directory when
the path is absent and succeeds silently when the path already is a
directory (its contents kept); only a non-directory file raises
`FileExistsError`, which triggers the confirmation loop and, on consent,
`unlink()` plus a fresh `mkdir`.  Then the conversion loop runs over the
directory entries (`entries` is the `iterdir()` listing). -/
def convert_imgs (imread : String → Buf) (scratch_path : String) (scratch : ScratchState)
    (entries : List String) (temp_suffix : String) (brightness contrast : ℤ)
    (inputs : List String) : ConvResult :=
  match scratch with
  | ScratchState.absent =>
    let r := convertLoop imread temp_suffix brightness contrast [] entries
    ⟨Event.mkdirScratch :: r.1, ScratchState.isDir r.2.1, inputs, r.2.2⟩
  | ScratchState.isDir existing =>
    let r := convertLoop imread temp_suffix brightness contrast existing entries
    ⟨r.1, ScratchState.isDir r.2.1, inputs, r.2.2⟩
  | ScratchState.isFile =>
    let c := confirmLoop scratch_path "_" inputs
    match c.2.2 with
    | Term.ok =>
      let r := convertLoop imread temp_suffix brightness contrast [] entries
      ⟨c.1 ++ [Event.unlinkScratch, Event.mkdirScratch] ++ r.1,
        ScratchState.isDir r.2.1, c.2.1, r.2.2⟩
    | t => ⟨c.1, ScratchState.isFile, c.2.1, t⟩

/-- Embedding of `imgs_to_pdf` (lines 139-144): list the scratch directory, hand the
paths to the external `img2pdf.convert` — which may raise
(`assembler_fails`) — and on success write the PDF bytes to
`output_path`. -/
def imgs_to_pdf (assembler_fails : Bool) (_scratch_files : List String)
    (output_path : String) (files : List String) : List Event × List String × Term :=
  if assembler_fails then ([], files, Term.raised Err.assemblerError)
  else ([Event.writeOutput output_path], upsert files output_path, Term.ok)

/-- Embedding of `delete_temp_imgs` (lines 147-148): `shutil.rmtree(temp_dir)` —
recursive deletion of the scratch directory (which exists whenever the
program reaches this call). -/
def delete_temp_imgs (_temp_dir : ScratchState) : List Event × ScratchState :=
  ([Event.rmtreeScratch], ScratchState.absent)

/-- The `try: imgs_to_pdf(...) finally: delete_temp_imgs(...)` block of
`main` (lines 216-219): the cleanup runs after `imgs_to_pdf` on both its
exit paths, and the block terminates the way `imgs_to_pdf` did. -/
def try_assemble_cleanup (assembler_fails : Bool) (files scratch_files : List String)
    (output_path : String) : List Event × List String × ScratchState × Term :=
  let a := imgs_to_pdf assembler_fails scratch_files output_path files
  let d := delete_temp_imgs (ScratchState.isDir scratch_files)
  (a.1 ++ d.1, a.2.1, d.2, a.2.2)

/-- The filesystem as the program sees it: the set of existing ordinary
file paths, and the state of the scratch path. -/
structure FS where
  files : List String
  scratch : ScratchState
deriving DecidableEq

/-- Result of a whole run of `main`. -/
structure MainResult where
  events : List Event
  fs : FS
  term : Term
deriving DecidableEq

/-- Lines 214-219 of `main`, once `output_path` is resolved:
`check_valid_args(imgs_path, output_path)` runs first, then
`convert_imgs(imgs_path, brightness=..., contrast=...)` (NOT inside any
try/finally), and only the final `imgs_to_pdf(converted_dir,
get_output_path(output_path))` is wrapped in `try/finally
delete_temp_imgs(converted_dir)`.  `exit(0)` or an exception inside an
earlier step propagates, skipping everything after it. -/
def main_body (imread : String → Buf) (assembler_fails : Bool) (imgs_path : String)
    (imgs_is_dir imgs_exists : Bool) (output_path : String)
    (brightness contrast : ℤ) (fs : FS) (entries : List String)
    (inputs : List String) : MainResult :=
  let r1 := check_valid_args fs.files imgs_is_dir imgs_exists output_path inputs
  match r1.2.2 with
  | Term.ok =>
    let c := convert_imgs imread (imgs_path ++ "/.images_to_pdf_temp") fs.scratch entries
      "__temp" brightness contrast r1.2.1
    match c.term with
    | Term.ok =>
      let sf :=
        match c.scratch with
        | ScratchState.isDir fl => fl
        | _ => []
      let r := try_assemble_cleanup assembler_fails fs.files sf (get_output_path output_path)
      ⟨r1.1 ++ c.events ++ r.1, ⟨r.2.1, r.2.2.1⟩, r.2.2.2⟩
    | t => ⟨r1.1 ++ c.events, ⟨fs.files, c.scratch⟩, t⟩
  | t => ⟨r1.1, fs, t⟩

/-- Embedding of `main` (lines 177-219) after argument parsing: when no `--output_path`
was given the default is `imgs_path/"combined_imgs.pdf"` (lines 204-205),
then the pipeline of lines 214-219 runs. -/
def main_run (imread : String → Buf) (assembler_fails : Bool) (imgs_path : String)
    (imgs_is_dir imgs_exists : Bool) (output_path_arg : Option String)
    (brightness contrast : ℤ) (fs : FS) (entries : List String)
    (inputs : List String) : MainResult :=
  let output_path :=
    match output_path_arg with
    | none => imgs_path ++ "/combined_imgs.pdf"
    | some p => p
  main_body imread assembler_fails imgs_path imgs_is_dir imgs_exists output_path
    brightness contrast fs entries inputs

/-! ## Helper lemmas -/

lemma addWeighted_self (l : Buf) (alpha gamma : ℚ) :
    addWeighted l alpha l 0 gamma = l.map (fun v => clamp (v * alpha + gamma)) := by
  induction l with
  | nil => rfl
  | cons a t ih =>
    simp only [addWeighted, List.zipWith_cons_cons, List.map_cons] at ih ⊢
    rw [ih]
    congr 1
    ring_nf

lemma denom_eq_zero_iff (c : ℤ) : (127 * (131 - c) : ℤ) = 0 ↔ c = 131 := by
  constructor
  · intro h; omega
  · intro h; omega

/-- At `contrast = 131` the denominator is zero and the Python `/` raises. -/
lemma apply_bc_131 (img : Buf) (b : ℤ) :
    apply_brightness_contrast img b 131 = Except.error Err.zeroDivisionError := by
  simp [apply_brightness_contrast]

/-- Away from `contrast = 131`, `apply_brightness_contrast` agrees with the
specification's Tone Adjuster formula. -/
lemma apply_bc_eq_spec (buffer : Buf) (b c : ℤ) (hc : c ≠ 131) :
    apply_brightness_contrast buffer b c = Except.ok (adjust_spec buffer b c) := by
  have hd : (127 * (131 - c) : ℤ) ≠ 0 := by omega
  simp only [apply_brightness_contrast, adjust_spec]
  have hstage :
      (if b ≠ 0 then
          addWeighted buffer
            ((((if b > 0 then (255:ℤ) else 255 + b) - (if b > 0 then b else (0:ℤ)) : ℤ) : ℚ) / 255)
            buffer 0 (((if b > 0 then b else (0:ℤ)) : ℤ) : ℚ)
        else buffer)
      = (if b = 0 then buffer
         else buffer.map (fun v =>
           clamp (v * (((255 + min b 0 - max b 0 : ℤ) : ℚ) / 255) + ((max b 0 : ℤ) : ℚ)))) := by
    by_cases hb : b = 0
    · simp [hb]
    · rw [if_pos hb, if_neg hb]
      by_cases hbp : b > 0
      · have h1 : max b 0 = b := max_eq_left hbp.le
        have h2 : min b 0 = (0 : ℤ) := min_eq_right hbp.le
        rw [if_pos hbp, if_pos hbp, addWeighted_self, h1, h2]
        congr 1
      · have hbn : b ≤ 0 := by omega
        have h1 : max b 0 = (0 : ℤ) := max_eq_right hbn
        have h2 : min b 0 = b := min_eq_left hbn
        rw [if_neg hbp, if_neg hbp, addWeighted_self, h1, h2]
  rw [hstage]
  by_cases hcz : c = 0
  · simp [hcz]
  · rw [if_pos hcz, if_neg hcz, if_neg hd, addWeighted_self]

lemma adjust_spec_length (buffer : Buf) (b c : ℤ) :
    (adjust_spec buffer b c).length = buffer.length := by
  simp only [adjust_spec]
  by_cases hb : b = 0 <;> by_cases hc : c = 0 <;> simp [hb, hc]

lemma confirmLoop_cancel (path : String) :
    ∀ (pre : List String) (u : String), invalidAnswer u → (∀ s ∈ pre, invalidAnswer s) →
    ∀ (ans : String) (rest : List String), lowerStrip ans = "n" →
    confirmLoop path u (pre ++ ans :: rest)
      = (List.replicate (pre.length + 1) (Event.promptOverwrite path) ++ [Event.printCancel],
         rest, Term.exited 0) := by
  intro pre
  induction pre with
  | nil =>
    intro u hu _ ans rest hans
    obtain ⟨h1, h2, h3⟩ := hu
    rw [confirmLoop.eq_def]
    simp [h1, h2, h3, hans]
  | cons p pre ih =>
    intro u hu hpre ans rest hans
    obtain ⟨h1, h2, h3⟩ := hu
    have hp := hpre p (List.mem_cons_self p pre)
    rw [confirmLoop.eq_def]
    simp only [List.cons_append]
    rw [if_neg (by simp [h1, h2, h3])]
    rw [if_neg hp.2.1,
      ih p hp (fun s hs => hpre s (List.mem_cons_of_mem p hs)) ans rest hans]
    simp [List.replicate_succ]

lemma confirmLoop_accept (path : String) :
    ∀ (pre : List String) (u : String), invalidAnswer u → (∀ s ∈ pre, invalidAnswer s) →
    ∀ (ans : String) (rest : List String), lowerStrip ans = "y" ∨ ans = "" →
    confirmLoop path u (pre ++ ans :: rest)
      = (List.replicate (pre.length + 1) (Event.promptOverwrite path), rest, Term.ok) := by
  intro pre
  induction pre with
  | nil =>
    intro u hu _ ans rest hans
    obtain ⟨h1, h2, h3⟩ := hu
    have hnn : lowerStrip ans ≠ "n" := by
      rcases hans with h | h
      · rw [h]; decide
      · rw [h]; decide
    rw [confirmLoop.eq_def]
    simp only [List.nil_append]
    rw [if_neg (by simp [h1, h2, h3])]
    have hgo : lowerStrip ans = "y" ∨ lowerStrip ans = "n" ∨ ans = "" := by
      rcases hans with h | h
      · exact Or.inl h
      · exact Or.inr (Or.inr h)
    rw [if_neg hnn, confirmLoop.eq_def, if_pos hgo]
    simp [List.replicate_succ]
  | cons p pre ih =>
    intro u hu hpre ans rest hans
    obtain ⟨h1, h2, h3⟩ := hu
    have hp := hpre p (List.mem_cons_self p pre)
    rw [confirmLoop.eq_def]
    simp only [List.cons_append]
    rw [if_neg (by simp [h1, h2, h3])]
    rw [if_neg hp.2.1,
      ih p hp (fun s hs => hpre s (List.mem_cons_of_mem p hs)) ans rest hans]
    simp [List.replicate_succ]

lemma confirmLoop_blocked (path : String) (u : String) (hu : invalidAnswer u) :
    confirmLoop path u [] = ([Event.promptOverwrite path], [], Term.blocked) := by
  obtain ⟨h1, h2, h3⟩ := hu
  rw [confirmLoop.eq_def]
  simp [h1, h2, h3]

lemma confirmLoop_head (path : String) (u : String) (hu : invalidAnswer u)
    (inputs : List String) :
    ((confirmLoop path u inputs).1).head? = some (Event.promptOverwrite path) := by
  obtain ⟨h1, h2, h3⟩ := hu
  rw [confirmLoop.eq_def]
  cases inputs with
  | nil => simp [h1, h2, h3]
  | cons ans rest =>
    rw [if_neg (by simp [h1, h2, h3])]
    dsimp only
    by_cases hn : lowerStrip ans = "n"
    · simp [hn]
    · simp [hn]

lemma confirmLoop_events (path : String) :
    ∀ (inputs : List String) (u : String) (e : Event), e ∈ (confirmLoop path u inputs).1 →
    e = Event.promptOverwrite path ∨ e = Event.printCancel := by
  intro inputs
  induction inputs with
  | nil =>
    intro u e he
    rw [confirmLoop.eq_def] at he
    by_cases h : lowerStrip u = "y" ∨ lowerStrip u = "n" ∨ u = ""
    · rw [if_pos h] at he; simp at he
    · rw [if_neg h] at he; simp at he; exact Or.inl he
  | cons ans rest ih =>
    intro u e he
    rw [confirmLoop.eq_def] at he
    by_cases h : lowerStrip u = "y" ∨ lowerStrip u = "n" ∨ u = ""
    · rw [if_pos h] at he; simp at he
    · rw [if_neg h] at he
      dsimp only at he
      by_cases hn : lowerStrip ans = "n"
      · rw [if_pos hn] at he
        simp at he
        rcases he with h' | h'
        · exact Or.inl h'
        · exact Or.inr h'
      · rw [if_neg hn] at he
        simp at he
        rcases he with h' | h'
        · exact Or.inl h'
        · exact ih ans e h'

lemma confirmLoop_term (path : String) :
    ∀ (inputs : List String) (u : String),
    (confirmLoop path u inputs).2.2 = Term.ok ∨ (confirmLoop path u inputs).2.2 = Term.exited 0
      ∨ (confirmLoop path u inputs).2.2 = Term.blocked := by
  intro inputs
  induction inputs with
  | nil =>
    intro u
    rw [confirmLoop.eq_def]
    by_cases h : lowerStrip u = "y" ∨ lowerStrip u = "n" ∨ u = ""
    · rw [if_pos h]; simp
    · rw [if_neg h]; simp
  | cons ans rest ih =>
    intro u
    rw [confirmLoop.eq_def]
    by_cases h : lowerStrip u = "y" ∨ lowerStrip u = "n" ∨ u = ""
    · rw [if_pos h]; simp
    · rw [if_neg h]
      dsimp only
      by_cases hn : lowerStrip ans = "n"
      · rw [if_pos hn]; simp
      · rw [if_neg hn]; exact ih ans

lemma apply_bc_error (img : Buf) (b c : ℤ) (e : Err)
    (h : apply_brightness_contrast img b c = Except.error e) : e = Err.zeroDivisionError := by
  by_cases hc : c = 131
  · subst hc
    rw [apply_bc_131] at h
    exact (Except.error.inj h).symm
  · rw [apply_bc_eq_spec img b c hc] at h
    cases h

lemma mem_upsert (files : List String) (n x : String) :
    x ∈ upsert files n ↔ x ∈ files ∨ x = n := by
  unfold upsert
  by_cases h : n ∈ files
  · rw [if_pos h]
    constructor
    · exact Or.inl
    · rintro (hx | rfl)
      · exact hx
      · exact h
  · rw [if_neg h]
    simp

lemma mem_upsertAll (names : List String) :
    ∀ (files : List String) (x : String),
    x ∈ upsertAll files names ↔ x ∈ files ∨ x ∈ names := by
  induction names with
  | nil => intro files x; simp [upsertAll]
  | cons n rest ih =>
    intro files x
    unfold upsertAll at ih ⊢
    rw [List.foldl_cons, ih, mem_upsert]
    simp [or_assoc]

lemma upsertAll_of_nodup (names : List String) :
    ∀ (files : List String), (files ++ names).Nodup → upsertAll files names = files ++ names := by
  induction names with
  | nil => intro files _; simp [upsertAll]
  | cons n rest ih =>
    intro files hnd
    unfold upsertAll at ih ⊢
    rw [List.foldl_cons]
    have hn : n ∉ files := by
      intro hmem
      exact (List.nodup_append.mp hnd).2.2 hmem (List.mem_cons_self n rest)
    have hup : upsert files n = files ++ [n] := by unfold upsert; rw [if_neg hn]
    rw [hup, ih (files ++ [n]) (by simpa [List.append_assoc] using hnd)]
    simp

lemma convertLoop_ok (ir : String → Buf) (suf : String) (b c : ℤ) (hc : c ≠ 131) :
    ∀ (entries files : List String),
    convertLoop ir suf b c files entries
      = ((tempNames suf entries).map Event.writeTemp, upsertAll files (tempNames suf entries),
         Term.ok) := by
  intro entries
  induction entries with
  | nil => intro files; simp [convertLoop, tempNames, upsertAll]
  | cons img rest ih =>
    intro files
    rw [convertLoop]
    cases hn : get_img_name img with
    | none =>
      dsimp only
      rw [ih files]
      simp [tempNames, List.filterMap_cons, hn]
    | some name =>
      dsimp only
      have hout : apply_brightness_contrast (ir img) b c
          = Except.ok (adjust_spec (ir img) b c) := apply_bc_eq_spec (ir img) b c hc
      rw [hout]
      dsimp only
      rw [ih (upsert files (name ++ suf ++ ".jpg"))]
      simp [tempNames, List.filterMap_cons, hn, upsertAll, List.foldl_cons]

lemma convertLoop_131 (ir : String → Buf) (suf : String) (b : ℤ) :
    ∀ (entries files : List String), (∃ e ∈ entries, get_img_name e ≠ none) →
    (convertLoop ir suf b 131 files entries).2.2 = Term.raised Err.zeroDivisionError := by
  intro entries
  induction entries with
  | nil =>
    rintro files ⟨e, he, _⟩
    simp at he
  | cons img rest ih =>
    rintro files ⟨e, he, hne⟩
    rw [convertLoop]
    cases hn : get_img_name img with
    | none =>
      dsimp only
      apply ih
      rcases List.mem_cons.mp he with rfl | hmem
      · exact absurd hn hne
      · exact ⟨e, hmem, hne⟩
    | some name =>
      dsimp only
      rw [apply_bc_131]

lemma convertLoop_no_prompt (ir : String → Buf) (suf : String) (b c : ℤ) :
    ∀ (entries files : List String) (p : String),
    Event.promptOverwrite p ∉ (convertLoop ir suf b c files entries).1 := by
  intro entries
  induction entries with
  | nil => intro files p; simp [convertLoop]
  | cons img rest ih =>
    intro files p
    rw [convertLoop]
    cases hn : get_img_name img with
    | none =>
      dsimp only
      exact ih files p
    | some name =>
      dsimp only
      cases hap : apply_brightness_contrast (ir img) b c with
      | error e =>
        dsimp only
        simp
      | ok out =>
        dsimp only
        simp only [List.mem_cons, not_or]
        exact ⟨by simp, ih _ p⟩

lemma convertLoop_term (ir : String → Buf) (suf : String) (b c : ℤ) :
    ∀ (entries files : List String),
    (convertLoop ir suf b c files entries).2.2 = Term.ok ∨
    (convertLoop ir suf b c files entries).2.2 = Term.raised Err.zeroDivisionError := by
  intro entries
  induction entries with
  | nil => intro files; simp [convertLoop]
  | cons img rest ih =>
    intro files
    rw [convertLoop]
    cases hn : get_img_name img with
    | none =>
      dsimp only
      exact ih files
    | some name =>
      dsimp only
      cases hap : apply_brightness_contrast (ir img) b c with
      | error e =>
        dsimp only
        exact Or.inr (by rw [apply_bc_error (ir img) b c e hap])
      | ok out =>
        dsimp only
        exact ih _

lemma check_valid_args_no_out (files : List String) (d ex : Bool) (out : String)
    (inputs : List String) (h : out ∉ files) :
    check_valid_args files d ex out inputs
      = ([], inputs,
         if d = false then Term.raised Err.valueErrorInvalidInput
         else if ex = false then Term.raised Err.valueErrorMissingInput
         else Term.ok) := by
  unfold check_valid_args
  dsimp only
  rw [if_neg h]
  dsimp only
  split_ifs <;> rfl

lemma check_valid_args_cancel (files : List String) (d ex : Bool) (out : String)
    (h : out ∈ files) (pre : List String) (hpre : ∀ s ∈ pre, invalidAnswer s)
    (ans : String) (rest : List String) (hans : lowerStrip ans = "n") :
    check_valid_args files d ex out (pre ++ ans :: rest)
      = (List.replicate (pre.length + 1) (Event.promptOverwrite out) ++ [Event.printCancel],
         rest, Term.exited 0) := by
  unfold check_valid_args
  dsimp only
  rw [if_pos h, confirmLoop_cancel out pre "_" (by decide) hpre ans rest hans]

lemma check_valid_args_accept (files : List String) (d ex : Bool) (out : String)
    (h : out ∈ files) (pre : List String) (hpre : ∀ s ∈ pre, invalidAnswer s)
    (ans : String) (rest : List String) (hans : lowerStrip ans = "y" ∨ ans = "") :
    check_valid_args files d ex out (pre ++ ans :: rest)
      = (List.replicate (pre.length + 1) (Event.promptOverwrite out), rest,
         if d = false then Term.raised Err.valueErrorInvalidInput
         else if ex = false then Term.raised Err.valueErrorMissingInput
         else Term.ok) := by
  unfold check_valid_args
  dsimp only
  rw [if_pos h, confirmLoop_accept out pre "_" (by decide) hpre ans rest hans]
  dsimp only
  split_ifs <;> rfl

lemma check_valid_args_head (files : List String) (d ex : Bool) (out : String)
    (inputs : List String) (h : out ∈ files) :
    ((check_valid_args files d ex out inputs).1).head? = some (Event.promptOverwrite out) := by
  unfold check_valid_args
  dsimp only
  rw [if_pos h]
  rcases confirmLoop_term out inputs "_" with hh | hh | hh <;> rw [hh] <;> dsimp only
  · split_ifs <;> exact confirmLoop_head out "_" (by decide) inputs
  · exact confirmLoop_head out "_" (by decide) inputs
  · exact confirmLoop_head out "_" (by decide) inputs

lemma check_valid_args_term (files : List String) (d ex : Bool) (out : String)
    (inputs : List String) :
    (check_valid_args files d ex out inputs).2.2 = Term.ok ∨
    (check_valid_args files d ex out inputs).2.2 = Term.exited 0 ∨
    (check_valid_args files d ex out inputs).2.2 = Term.blocked ∨
    (check_valid_args files d ex out inputs).2.2 = Term.raised Err.valueErrorInvalidInput ∨
    (check_valid_args files d ex out inputs).2.2 = Term.raised Err.valueErrorMissingInput := by
  unfold check_valid_args
  dsimp only
  by_cases hm : out ∈ files
  · rw [if_pos hm]
    rcases confirmLoop_term out inputs "_" with hh | hh | hh <;> rw [hh] <;> dsimp only
    · split_ifs <;> simp
    · simp
    · simp
  · rw [if_neg hm]
    dsimp only
    split_ifs <;> simp

lemma convert_imgs_absent (ir : String → Buf) (sp : String) (entries : List String)
    (suf : String) (b c : ℤ) (inputs : List String) :
    convert_imgs ir sp ScratchState.absent entries suf b c inputs
      = ⟨Event.mkdirScratch :: (convertLoop ir suf b c [] entries).1,
         ScratchState.isDir (convertLoop ir suf b c [] entries).2.1, inputs,
         (convertLoop ir suf b c [] entries).2.2⟩ := rfl

lemma convert_imgs_isDir (ir : String → Buf) (sp : String) (existing entries : List String)
    (suf : String) (b c : ℤ) (inputs : List String) :
    convert_imgs ir sp (ScratchState.isDir existing) entries suf b c inputs
      = ⟨(convertLoop ir suf b c existing entries).1,
         ScratchState.isDir (convertLoop ir suf b c existing entries).2.1, inputs,
         (convertLoop ir suf b c existing entries).2.2⟩ := rfl

lemma convert_imgs_isFile_cancel (ir : String → Buf) (sp : String) (entries : List String)
    (suf : String) (b c : ℤ) (pre : List String) (hpre : ∀ s ∈ pre, invalidAnswer s)
    (ans : String) (rest : List String) (hans : lowerStrip ans = "n") :
    convert_imgs ir sp ScratchState.isFile entries suf b c (pre ++ ans :: rest)
      = ⟨List.replicate (pre.length + 1) (Event.promptOverwrite sp) ++ [Event.printCancel],
         ScratchState.isFile, rest, Term.exited 0⟩ := by
  unfold convert_imgs
  dsimp only
  rw [confirmLoop_cancel sp pre "_" (by decide) hpre ans rest hans]

lemma convert_imgs_isFile_accept (ir : String → Buf) (sp : String) (entries : List String)
    (suf : String) (b c : ℤ) (pre : List String) (hpre : ∀ s ∈ pre, invalidAnswer s)
    (ans : String) (rest : List String) (hans : lowerStrip ans = "y" ∨ ans = "") :
    convert_imgs ir sp ScratchState.isFile entries suf b c (pre ++ ans :: rest)
      = ⟨List.replicate (pre.length + 1) (Event.promptOverwrite sp)
           ++ [Event.unlinkScratch, Event.mkdirScratch] ++ (convertLoop ir suf b c [] entries).1,
         ScratchState.isDir (convertLoop ir suf b c [] entries).2.1, rest,
         (convertLoop ir suf b c [] entries).2.2⟩ := by
  unfold convert_imgs
  dsimp only
  rw [confirmLoop_accept sp pre "_" (by decide) hpre ans rest hans]

lemma convert_imgs_term (ir : String → Buf) (sp : String) (scratch : ScratchState)
    (entries : List String) (suf : String) (b c : ℤ) (inputs : List String) :
    (convert_imgs ir sp scratch entries suf b c inputs).term = Term.ok ∨
    (convert_imgs ir sp scratch entries suf b c inputs).term
      = Term.raised Err.zeroDivisionError ∨
    (convert_imgs ir sp scratch entries suf b c inputs).term = Term.exited 0 ∨
    (convert_imgs ir sp scratch entries suf b c inputs).term = Term.blocked := by
  cases scratch with
  | absent =>
    rw [convert_imgs_absent]
    rcases convertLoop_term ir suf b c entries [] with h | h
    · exact Or.inl h
    · exact Or.inr (Or.inl h)
  | isDir existing =>
    rw [convert_imgs_isDir]
    rcases convertLoop_term ir suf b c entries existing with h | h
    · exact Or.inl h
    · exact Or.inr (Or.inl h)
  | isFile =>
    unfold convert_imgs
    dsimp only
    rcases confirmLoop_term sp inputs "_" with hh | hh | hh <;> rw [hh] <;> dsimp only
    · rcases convertLoop_term ir suf b c entries [] with h | h
      · exact Or.inl h
      · exact Or.inr (Or.inl h)
    · simp
    · simp

lemma head?_append_some {α : Type} {l l2 : List α} {x : α} (h : l.head? = some x) :
    (l ++ l2).head? = some x := by
  cases l with
  | nil => simp at h
  | cons a t => simpa using h

lemma check_valid_args_pass (files : List String) (out : String) (inputs : List String)
    (h : out ∉ files) :
    check_valid_args files true true out inputs = ([], inputs, Term.ok) := by
  rw [check_valid_args_no_out files true true out inputs h]
  simp

lemma try_assemble_cleanup_eq (af : Bool) (files sf : List String) (out : String) :
    try_assemble_cleanup af files sf out
      = ((imgs_to_pdf af sf out files).1 ++ [Event.rmtreeScratch],
         (imgs_to_pdf af sf out files).2.1, ScratchState.absent,
         (imgs_to_pdf af sf out files).2.2) := rfl

lemma main_body_head (ir : String → Buf) (af : Bool) (ip : String) (d ex : Bool) (out : String)
    (b c : ℤ) (fs : FS) (entries inputs : List String) (h : out ∈ fs.files) :
    ((main_body ir af ip d ex out b c fs entries inputs).events).head?
      = some (Event.promptOverwrite out) := by
  unfold main_body
  dsimp only
  have hh := check_valid_args_head fs.files d ex out inputs h
  rcases check_valid_args_term fs.files d ex out inputs with h1 | h1 | h1 | h1 | h1 <;>
    rw [h1] <;> dsimp only
  · rcases convert_imgs_term ir (ip ++ "/.images_to_pdf_temp") fs.scratch entries "__temp" b c
        (check_valid_args fs.files d ex out inputs).2.1 with h2 | h2 | h2 | h2 <;>
      rw [h2] <;> dsimp only <;>
      first
      | exact head?_append_some (head?_append_some hh)
      | exact head?_append_some hh
  · exact hh
  · exact hh
  · exact hh
  · exact hh

lemma main_body_cleanup (ir : String → Buf) (af : Bool) (ip : String) (d ex : Bool)
    (out : String) (b c : ℤ) (fs : FS) (entries inputs : List String) :
    ((main_body ir af ip d ex out b c fs entries inputs).term = Term.ok ∨
     (main_body ir af ip d ex out b c fs entries inputs).term
       = Term.raised Err.assemblerError) →
    (main_body ir af ip d ex out b c fs entries inputs).fs.scratch = ScratchState.absent := by
  unfold main_body
  dsimp only
  rcases check_valid_args_term fs.files d ex out inputs with h1 | h1 | h1 | h1 | h1 <;>
    rw [h1] <;> dsimp only
  · rcases convert_imgs_term ir (ip ++ "/.images_to_pdf_temp") fs.scratch entries "__temp" b c
        (check_valid_args fs.files d ex out inputs).2.1 with h2 | h2 | h2 | h2 <;>
      rw [h2] <;> dsimp only
    · intro _
      simp [try_assemble_cleanup, delete_temp_imgs]
    · intro h'; rcases h' with h' | h' <;> simp at h'
    · intro h'; rcases h' with h' | h' <;> simp at h'
    · intro h'; rcases h' with h' | h' <;> simp at h'
  · intro h'; rcases h' with h' | h' <;> simp at h'
  · intro h'; rcases h' with h' | h' <;> simp at h'
  · intro h'; rcases h' with h' | h' <;> simp at h'
  · intro h'; rcases h' with h' | h' <;> simp at h'

lemma main_body_leak_131 (ir : String → Buf) (af : Bool) (ip : String) (b : ℤ) (out : String)
    (files entries inputs : List String) (hout : out ∉ files)
    (hval : ∃ e ∈ entries, get_img_name e ≠ none) :
    main_body ir af ip true true out b 131 ⟨files, ScratchState.absent⟩ entries inputs
      = ⟨Event.mkdirScratch :: (convertLoop ir "__temp" b 131 [] entries).1,
         ⟨files, ScratchState.isDir (convertLoop ir "__temp" b 131 [] entries).2.1⟩,
         Term.raised Err.zeroDivisionError⟩ := by
  unfold main_body
  dsimp only
  rw [check_valid_args_pass files out inputs hout]
  dsimp only
  rw [convert_imgs_absent ir (ip ++ "/.images_to_pdf_temp") entries "__temp" b 131 inputs]
  dsimp only
  rw [convertLoop_131 ir "__temp" b entries [] hval]
  dsimp only
  simp

lemma check_valid_args_blocked (files : List String) (d ex : Bool) (out : String)
    (h : out ∈ files) :
    check_valid_args files d ex out [] = ([Event.promptOverwrite out], [], Term.blocked) := by
  unfold check_valid_args
  dsimp only
  rw [if_pos h, confirmLoop_blocked out "_" (by decide)]

lemma main_body_cancel (ir : String → Buf) (af : Bool) (ip : String) (d ex : Bool)
    (out : String) (b c : ℤ) (files : List String) (scratch : ScratchState)
    (entries : List String) (h : out ∈ files) (pre : List String)
    (hpre : ∀ s ∈ pre, invalidAnswer s) (ans : String) (rest : List String)
    (hans : lowerStrip ans = "n") :
    main_body ir af ip d ex out b c ⟨files, scratch⟩ entries (pre ++ ans :: rest)
      = ⟨List.replicate (pre.length + 1) (Event.promptOverwrite out) ++ [Event.printCancel],
         ⟨files, scratch⟩, Term.exited 0⟩ := by
  unfold main_body
  dsimp only
  rw [check_valid_args_cancel files d ex out h pre hpre ans rest hans]

lemma str_append_right_cancel (a b c : String) (h : a ++ c = b ++ c) : a = b := by
  have hd := congrArg String.data h
  simp only [String.data_append] at hd
  exact String.ext (List.append_cancel_right hd)

/-! ## Claim theorems -/

/-- C1 (amended): for brightness and contrast in [-255,255] with
contrast ≠ 131, `apply_brightness_contrast` returns a buffer of the same
shape computed exactly by the specification's formula (brightness stage
with shadow = max(brightness,0), highlight = 255 + min(brightness,0) and
elementwise clamp, then contrast stage with
f = 131*(contrast+127)/(127*(131-contrast)) and elementwise clamp); in
particular adjust(buf, 0, 0) equals the input buffer. -/
theorem claim_C1 (buffer : Buf) (brightness contrast : ℤ)
    (hb1 : -255 ≤ brightness) (hb2 : brightness ≤ 255)
    (hc1 : -255 ≤ contrast) (hc2 : contrast ≤ 255) (hc : contrast ≠ 131) :
    apply_brightness_contrast buffer brightness contrast
        = Except.ok (adjust_spec buffer brightness contrast)
      ∧ (adjust_spec buffer brightness contrast).length = buffer.length
      ∧ apply_brightness_contrast buffer 0 0 = Except.ok buffer :=
  ⟨apply_bc_eq_spec buffer brightness contrast hc,
   adjust_spec_length buffer brightness contrast,
   by simp [apply_brightness_contrast]⟩

/-- C1 counterexample: at contrast = 131 (inside [-255,255]) the function
does not return any buffer — the formula's denominator is zero and the
Python division raises ZeroDivisionError. -/
theorem claim_C1_cex :
    apply_brightness_contrast [(100 : ℚ)] 0 131 = Except.error Err.zeroDivisionError := by
  decide

/-- C1 witness at buffer [0,100,255], brightness 50, contrast 20. -/
theorem claim_C1_witness :
    apply_brightness_contrast [(0 : ℚ), 100, 255] 50 20
        = Except.ok (adjust_spec [(0 : ℚ), 100, 255] 50 20)
      ∧ (adjust_spec [(0 : ℚ), 100, 255] 50 20).length = ([(0 : ℚ), 100, 255] : Buf).length
      ∧ apply_brightness_contrast [(0 : ℚ), 100, 255] 0 0
        = Except.ok [(0 : ℚ), 100, 255] :=
  claim_C1 [(0 : ℚ), 100, 255] 50 20 (by decide) (by decide) (by decide) (by decide)
    (by decide)

/-- C8: at contrast = 131 the contrast formula's denominator
127*(131-contrast) is zero, `apply_brightness_contrast` raises
ZeroDivisionError for every buffer and brightness (no rejection, no
special case), and this branch is reachable: a full run with
contrast = 131 passes validation and terminates with the
ZeroDivisionError raised from the Tone Adjuster. -/
theorem claim_C8 :
    (127 * (131 - 131) : ℤ) = 0
    ∧ (∀ (img : Buf) (b : ℤ),
        apply_brightness_contrast img b 131 = Except.error Err.zeroDivisionError)
    ∧ main_run (fun _ => [0]) false "imgs" true true (some "out.pdf") 0 131
        ⟨[], ScratchState.absent⟩ ["a.png"] []
      = ⟨[Event.mkdirScratch], ⟨[], ScratchState.isDir []⟩,
         Term.raised Err.zeroDivisionError⟩ :=
  ⟨by decide, fun img b => apply_bc_131 img b, by decide⟩

/-- C2 counterexample: a run that created the scratch directory and then
failed in the Converting phase (contrast = 131 raising ZeroDivisionError)
terminates with the scratch directory still on disk — `convert_imgs` is
not inside the try/finally of `main`. -/
theorem claim_C2_cex :
    (main_run (fun _ => [0]) false "d" true true (some "o.pdf") 0 131
        ⟨[], ScratchState.absent⟩ ["b.jpg"] []).fs.scratch = ScratchState.isDir []
    ∧ (main_run (fun _ => [0]) false "d" true true (some "o.pdf") 0 131
        ⟨[], ScratchState.absent⟩ ["b.jpg"] []).term
      = Term.raised Err.zeroDivisionError := by
  decide

/-- C2 (amended): the scratch directory is deleted before termination on
every exit path of the assembly phase (the try/finally block re-raises the
assembler's error only after cleanup), but a failure raised during the
Converting phase after the scratch directory was created — e.g. the
division by zero at contrast = 131 — terminates the program with the
scratch directory still on disk. -/
theorem claim_C2 :
    (∀ (af : Bool) (files sf : List String) (out : String),
        (try_assemble_cleanup af files sf out).2.2.1 = ScratchState.absent
        ∧ (try_assemble_cleanup af files sf out).2.2.2 = (imgs_to_pdf af sf out files).2.2)
    ∧ (∀ (ir : String → Buf) (af : Bool) (ip : String) (b : ℤ) (out : String)
        (files entries inputs : List String), out ∉ files →
        (∃ e ∈ entries, get_img_name e ≠ none) →
        (main_run ir af ip true true (some out) b 131 ⟨files, ScratchState.absent⟩
            entries inputs).term = Term.raised Err.zeroDivisionError
        ∧ (main_run ir af ip true true (some out) b 131 ⟨files, ScratchState.absent⟩
            entries inputs).fs.scratch ≠ ScratchState.absent) := by
  constructor
  · intro af files sf out
    rw [try_assemble_cleanup_eq]
    exact ⟨rfl, rfl⟩
  · intro ir af ip b out files entries inputs hout hval
    have hrw : main_run ir af ip true true (some out) b 131 ⟨files, ScratchState.absent⟩
        entries inputs
        = main_body ir af ip true true out b 131 ⟨files, ScratchState.absent⟩
            entries inputs := rfl
    rw [hrw, main_body_leak_131 ir af ip b out files entries inputs hout hval]
    exact ⟨rfl, by simp⟩

/-- C2 witness at a concrete Converting-phase failure. -/
theorem claim_C2_witness :
    (main_run (fun _ => [0]) false "dir" true true (some "w.pdf") 0 131
        ⟨[], ScratchState.absent⟩ ["x.jpg"] []).term = Term.raised Err.zeroDivisionError :=
  (claim_C2.2 (fun _ => [0]) false "dir" 0 "w.pdf" [] ["x.jpg"] [] (by decide)
    ⟨"x.jpg", by decide, by decide⟩).1

/-- C5: cleanup runs on both exit paths of the assembly step: the
try/finally block always performs the recursive deletion (`rmtreeScratch`
is in its trace and its resulting scratch state is `absent`), after a
run that terminates normally the scratch directory no longer exists, and
after an assembler failure it is likewise removed. -/
theorem claim_C5 :
    (∀ (af : Bool) (files sf : List String) (out : String),
        Event.rmtreeScratch ∈ (try_assemble_cleanup af files sf out).1
        ∧ (try_assemble_cleanup af files sf out).2.2.1 = ScratchState.absent)
    ∧ (∀ (ir : String → Buf) (af : Bool) (ip : String) (d ex : Bool)
        (oarg : Option String) (b c : ℤ) (fs : FS) (entries inputs : List String),
        (main_run ir af ip d ex oarg b c fs entries inputs).term = Term.ok →
        (main_run ir af ip d ex oarg b c fs entries inputs).fs.scratch
          = ScratchState.absent)
    ∧ (∀ (ir : String → Buf) (af : Bool) (ip : String) (d ex : Bool)
        (oarg : Option String) (b c : ℤ) (fs : FS) (entries inputs : List String),
        (main_run ir af ip d ex oarg b c fs entries inputs).term
          = Term.raised Err.assemblerError →
        (main_run ir af ip d ex oarg b c fs entries inputs).fs.scratch
          = ScratchState.absent) := by
  refine ⟨?_, ?_, ?_⟩
  · intro af files sf out
    rw [try_assemble_cleanup_eq]
    exact ⟨by simp, rfl⟩
  · intro ir af ip d ex oarg b c fs entries inputs h
    cases oarg with
    | none => exact main_body_cleanup ir af ip d ex _ b c fs entries inputs (Or.inl h)
    | some p => exact main_body_cleanup ir af ip d ex p b c fs entries inputs (Or.inl h)
  · intro ir af ip d ex oarg b c fs entries inputs h
    cases oarg with
    | none => exact main_body_cleanup ir af ip d ex _ b c fs entries inputs (Or.inr h)
    | some p => exact main_body_cleanup ir af ip d ex p b c fs entries inputs (Or.inr h)

/-- C5 witness: a concrete successful run ends with the scratch directory
absent. -/
theorem claim_C5_witness :
    (main_run (fun _ => [0]) false "d" true true (some "o.pdf") 0 0
        ⟨[], ScratchState.absent⟩ ["a.png"] []).fs.scratch = ScratchState.absent :=
  claim_C5.2.1 (fun _ => [0]) false "d" true true (some "o.pdf") 0 0
    ⟨[], ScratchState.absent⟩ ["a.png"] [] (by decide)

/-- C3 counterexample: when the scratch path already exists as a
DIRECTORY, `mkdir(exist_ok=True)` succeeds silently, so `convert_imgs`
neither prompts nor removes the existing entry — its stale contents stay
in place — contradicting "whether as a file or as a directory ...
prompts ... removed and recreated empty". -/
theorem claim_C3_cex :
    convert_imgs (fun _ => [0]) "d/.images_to_pdf_temp" (ScratchState.isDir ["stale.jpg"])
        [] "__temp" 0 0 []
      = ⟨[], ScratchState.isDir ["stale.jpg"], [], Term.ok⟩ := by
  decide

/-- C3 (amended): `convert_imgs` prompts only when the scratch path exists
as a non-directory file ("n" aborts with exit 0 leaving the file; "y" or
empty input unlinks the file and recreates the directory empty before any
image is written); a pre-existing directory is reused silently, without
prompting and without being emptied. -/
theorem claim_C3 :
    (∀ (ir : String → Buf) (sp : String) (entries : List String) (suf : String) (b c : ℤ)
        (pre : List String), (∀ s ∈ pre, invalidAnswer s) →
        ∀ (ans : String) (rest : List String), lowerStrip ans = "n" →
        convert_imgs ir sp ScratchState.isFile entries suf b c (pre ++ ans :: rest)
          = ⟨List.replicate (pre.length + 1) (Event.promptOverwrite sp)
               ++ [Event.printCancel], ScratchState.isFile, rest, Term.exited 0⟩)
    ∧ (∀ (ir : String → Buf) (sp : String) (entries : List String) (suf : String) (b c : ℤ)
        (pre : List String), (∀ s ∈ pre, invalidAnswer s) →
        ∀ (ans : String) (rest : List String), lowerStrip ans = "y" ∨ ans = "" →
        convert_imgs ir sp ScratchState.isFile entries suf b c (pre ++ ans :: rest)
          = ⟨List.replicate (pre.length + 1) (Event.promptOverwrite sp)
               ++ [Event.unlinkScratch, Event.mkdirScratch]
               ++ (convertLoop ir suf b c [] entries).1,
             ScratchState.isDir (convertLoop ir suf b c [] entries).2.1, rest,
             (convertLoop ir suf b c [] entries).2.2⟩)
    ∧ (∀ (ir : String → Buf) (sp : String) (existing entries : List String) (suf : String)
        (b c : ℤ) (inputs : List String) (p : String),
        Event.promptOverwrite p ∉
          (convert_imgs ir sp (ScratchState.isDir existing) entries suf b c inputs).events) := by
  refine ⟨?_, ?_, ?_⟩
  · intro ir sp entries suf b c pre hpre ans rest hans
    exact convert_imgs_isFile_cancel ir sp entries suf b c pre hpre ans rest hans
  · intro ir sp entries suf b c pre hpre ans rest hans
    exact convert_imgs_isFile_accept ir sp entries suf b c pre hpre ans rest hans
  · intro ir sp existing entries suf b c inputs p
    rw [convert_imgs_isDir]
    exact convertLoop_no_prompt ir suf b c entries existing p

/-- C3 witness: scratch path occupied by a file, answer "n". -/
theorem claim_C3_witness :
    convert_imgs (fun _ => [0]) "sp" ScratchState.isFile ["a.png"] "__temp" 0 0 ["n"]
      = ⟨[Event.promptOverwrite "sp", Event.printCancel], ScratchState.isFile, [],
         Term.exited 0⟩ := by
  simpa using claim_C3.1 (fun _ => [0]) "sp" ["a.png"] "__temp" 0 0 []
    (by intro s hs; simp at hs) "n" [] (by decide)

/-- C4 counterexample: two valid input images with the same stripped
basename ("a.png" and "a.jpg") both map to the single scratch file
"a__temp.jpg" (the second write overwrites the first), so the scratch
directory does NOT contain one distinct file per valid input image. -/
theorem claim_C4_cex :
    convert_imgs (fun _ => [0]) "sp" ScratchState.absent ["a.png", "a.jpg"] "__temp" 0 0 []
      = ⟨[Event.mkdirScratch, Event.writeTemp "a__temp.jpg", Event.writeTemp "a__temp.jpg"],
         ScratchState.isDir ["a__temp.jpg"], [], Term.ok⟩
    ∧ (["a.png", "a.jpg"].filterMap get_img_name).length = 2 := by
  decide

/-- C4 (amended): provided the scratch path did not already exist and the
valid input images have pairwise distinct stripped basenames (and the run
does not hit the contrast = 131 defect), the scratch directory handed to
the assembler holds exactly one distinct file per valid input image, in
order, with no stray files. -/
theorem claim_C4 (ir : String → Buf) (sp : String) (entries : List String) (b c : ℤ)
    (inputs : List String) (hc : c ≠ 131)
    (hnd : (entries.filterMap get_img_name).Nodup) :
    (convert_imgs ir sp ScratchState.absent entries "__temp" b c inputs).scratch
        = ScratchState.isDir (tempNames "__temp" entries)
    ∧ (tempNames "__temp" entries).Nodup
    ∧ (tempNames "__temp" entries).length = (entries.filterMap get_img_name).length := by
  have hinj : Function.Injective (fun name => name ++ "__temp" ++ ".jpg" : String → String) := by
    intro a b h
    dsimp at h
    have h1 := str_append_right_cancel (a ++ "__temp") (b ++ "__temp") ".jpg" h
    exact str_append_right_cancel a b "__temp" h1
  have hndT : (tempNames "__temp" entries).Nodup := by
    unfold tempNames
    exact hnd.map hinj
  refine ⟨?_, hndT, by simp [tempNames]⟩
  rw [convert_imgs_absent, convertLoop_ok ir "__temp" b c hc entries []]
  dsimp only
  rw [upsertAll_of_nodup (tempNames "__temp" entries) [] (by simpa using hndT)]
  simp

/-- C4 witness at two distinct basenames. -/
theorem claim_C4_witness :
    (convert_imgs (fun _ => [0]) "sp" ScratchState.absent ["a.png", "b.jpg"] "__temp" 0 0
        []).scratch = ScratchState.isDir (tempNames "__temp" ["a.png", "b.jpg"])
    ∧ (tempNames "__temp" ["a.png", "b.jpg"]).Nodup
    ∧ (tempNames "__temp" ["a.png", "b.jpg"]).length
        = (["a.png", "b.jpg"].filterMap get_img_name).length :=
  claim_C4 (fun _ => [0]) "sp" ["a.png", "b.jpg"] 0 0 [] (by decide) (by decide)

/-- C6: with a fresh scratch directory (and away from the contrast = 131
defect) `convert_imgs` processes exactly those directory entries whose
name ends in the case-sensitive suffix ".png" or ".jpg", writing each as
`<basename>__temp.jpg` (always a .jpg name) and silently skipping every
other entry; for an input directory holding a.png, b.jpg, c.txt (plus the
just-created scratch entry that `iterdir` also lists) the scratch
directory receives exactly a__temp.jpg and b__temp.jpg. -/
theorem claim_C6 :
    (∀ (ir : String → Buf) (sp : String) (entries : List String) (b c : ℤ)
        (inputs : List String), c ≠ 131 →
        convert_imgs ir sp ScratchState.absent entries "__temp" b c inputs
          = ⟨Event.mkdirScratch :: (tempNames "__temp" entries).map Event.writeTemp,
             ScratchState.isDir (upsertAll [] (tempNames "__temp" entries)), inputs,
             Term.ok⟩
        ∧ (∀ x, x ∈ upsertAll [] (tempNames "__temp" entries) ↔
            ∃ e ∈ entries, ∃ bname, get_img_name e = some bname
              ∧ x = bname ++ "__temp" ++ ".jpg"))
    ∧ (∀ ir : String → Buf,
        convert_imgs ir "d/.images_to_pdf_temp" ScratchState.absent
            ["a.png", "b.jpg", "c.txt", ".images_to_pdf_temp"] "__temp" 0 0 []
          = ⟨[Event.mkdirScratch, Event.writeTemp "a__temp.jpg",
              Event.writeTemp "b__temp.jpg"],
             ScratchState.isDir ["a__temp.jpg", "b__temp.jpg"], [], Term.ok⟩) := by
  constructor
  · intro ir sp entries b c inputs hc
    constructor
    · rw [convert_imgs_absent, convertLoop_ok ir "__temp" b c hc entries []]
    · intro x
      rw [mem_upsertAll]
      simp only [List.not_mem_nil, false_or, tempNames, List.mem_map, List.mem_filterMap]
      constructor
      · rintro ⟨bname, ⟨e, he, hge⟩, rfl⟩
        exact ⟨e, he, bname, hge, rfl⟩
      · rintro ⟨e, he, bname, hge, rfl⟩
        exact ⟨bname, ⟨e, he, hge⟩, rfl⟩
  · intro ir
    rw [convert_imgs_absent, convertLoop_ok ir "__temp" 0 0 (by decide)]
    decide

/-- C6 witness with a single valid image. -/
theorem claim_C6_witness :
    convert_imgs (fun _ => [0]) "sp" ScratchState.absent ["a.png"] "__temp" 0 0 []
      = ⟨Event.mkdirScratch :: (tempNames "__temp" ["a.png"]).map Event.writeTemp,
         ScratchState.isDir (upsertAll [] (tempNames "__temp" ["a.png"])), [], Term.ok⟩ :=
  (claim_C6.1 (fun _ => [0]) "sp" ["a.png"] 0 0 [] (by decide)).1

/-- C7 counterexample: with supplied output path "foo.txt" while only
"foo.pdf" exists, the file actually written is "foo.pdf" (suffix forced),
it existed before the run, yet the whole trace contains no confirmation
prompt — the overwrite happens without confirmation. -/
theorem claim_C7_cex :
    get_output_path "foo.txt" = "foo.pdf"
    ∧ "foo.pdf" ∈ (["foo.pdf"] : List String)
    ∧ main_run (fun _ => [0]) false "d" true true (some "foo.txt") 0 0
        ⟨["foo.pdf"], ScratchState.absent⟩ ["a.png"] []
      = ⟨[Event.mkdirScratch, Event.writeTemp "a__temp.jpg", Event.writeOutput "foo.pdf",
          Event.rmtreeScratch], ⟨["foo.pdf"], ScratchState.absent⟩, Term.ok⟩ := by
  decide

/-- C7 (amended): the overwrite confirmation examines the user-supplied
output path as given, not the suffix-forced ".pdf" path that is actually
written: whenever the supplied path exists before the run the very first
event is its confirmation prompt (so when the supplied path already ends
in ".pdf" the original guarantee holds), but when it does not exist,
validation emits no prompt at all — even if the forced ".pdf" path
exists, as the counterexample shows. -/
theorem claim_C7 :
    (∀ (ir : String → Buf) (af : Bool) (ip : String) (d ex : Bool) (out : String)
        (b c : ℤ) (fs : FS) (entries inputs : List String), out ∈ fs.files →
        ((main_run ir af ip d ex (some out) b c fs entries inputs).events).head?
          = some (Event.promptOverwrite out))
    ∧ (∀ (files : List String) (d ex : Bool) (out : String) (inputs : List String),
        out ∉ files → (check_valid_args files d ex out inputs).1 = []) := by
  constructor
  · intro ir af ip d ex out b c fs entries inputs h
    exact main_body_head ir af ip d ex out b c fs entries inputs h
  · intro files d ex out inputs h
    rw [check_valid_args_no_out files d ex out inputs h]

/-- C7 witness: an existing supplied output path prompts first. -/
theorem claim_C7_witness :
    ((main_run (fun _ => [0]) false "d" true true (some "o.pdf") 0 0
        ⟨["o.pdf"], ScratchState.absent⟩ [] []).events).head?
      = some (Event.promptOverwrite "o.pdf") :=
  claim_C7.1 (fun _ => [0]) false "d" true true "o.pdf" 0 0
    ⟨["o.pdf"], ScratchState.absent⟩ [] [] (by decide)

/-- C9: at the output-overwrite prompt, answers are compared after
lower().strip() (case-insensitive, whitespace stripped), a literally
empty answer defaults to yes, invalid answers just repeat the prompt, and
an "n" answer prints the cancellation message and exits with status 0
immediately: the run's whole trace is the prompts plus the cancellation
print — no file is written or removed and the filesystem state is
returned unchanged. -/
theorem claim_C9 :
    (∀ (path : String) (pre : List String), (∀ s ∈ pre, invalidAnswer s) →
        ∀ (ans : String) (rest : List String), lowerStrip ans = "n" →
        confirmLoop path "_" (pre ++ ans :: rest)
          = (List.replicate (pre.length + 1) (Event.promptOverwrite path)
               ++ [Event.printCancel], rest, Term.exited 0))
    ∧ (∀ (path : String) (pre : List String), (∀ s ∈ pre, invalidAnswer s) →
        ∀ (ans : String) (rest : List String), lowerStrip ans = "y" ∨ ans = "" →
        confirmLoop path "_" (pre ++ ans :: rest)
          = (List.replicate (pre.length + 1) (Event.promptOverwrite path), rest, Term.ok))
    ∧ (∀ (ir : String → Buf) (af : Bool) (ip : String) (d ex : Bool) (out : String)
        (b c : ℤ) (files : List String) (scratch : ScratchState) (entries : List String)
        (pre : List String), out ∈ files → (∀ s ∈ pre, invalidAnswer s) →
        ∀ (ans : String) (rest : List String), lowerStrip ans = "n" →
        main_run ir af ip d ex (some out) b c ⟨files, scratch⟩ entries (pre ++ ans :: rest)
          = ⟨List.replicate (pre.length + 1) (Event.promptOverwrite out)
               ++ [Event.printCancel], ⟨files, scratch⟩, Term.exited 0⟩) := by
  refine ⟨?_, ?_, ?_⟩
  · intro path pre hpre ans rest hans
    exact confirmLoop_cancel path pre "_" (by decide) hpre ans rest hans
  · intro path pre hpre ans rest hans
    exact confirmLoop_accept path pre "_" (by decide) hpre ans rest hans
  · intro ir af ip d ex out b c files scratch entries pre hout hpre ans rest hans
    exact main_body_cancel ir af ip d ex out b c files scratch entries hout pre hpre
      ans rest hans

/-- C9 witness: after one invalid answer, " N " cancels with exit 0 and
an unchanged filesystem. -/
theorem claim_C9_witness :
    main_run (fun _ => [0]) false "d" true true (some "o.pdf") 0 0
        ⟨["o.pdf"], ScratchState.absent⟩ [] ["x", " N "]
      = ⟨[Event.promptOverwrite "o.pdf", Event.promptOverwrite "o.pdf", Event.printCancel],
         ⟨["o.pdf"], ScratchState.absent⟩, Term.exited 0⟩ := by
  simpa using claim_C9.2.2 (fun _ => [0]) false "d" true true "o.pdf" 0 0 ["o.pdf"]
    ScratchState.absent [] ["x"] (by decide) (by intro s hs; simp at hs; rw [hs]; decide)
    " N " [] (by decide)

/-- C10: validation prompts before it validates: when the supplied output
path exists and the input path is not a directory, `check_valid_args`
runs the whole confirmation interaction first — consuming the console
answers (and blocking when no answer is available) — and only afterwards
raises the invalid-input-path ValueError. -/
theorem claim_C10 :
    (∀ (files : List String) (ex : Bool) (out : String), out ∈ files →
        ∀ (pre : List String), (∀ s ∈ pre, invalidAnswer s) →
        ∀ (ans : String) (rest : List String), lowerStrip ans = "y" ∨ ans = "" →
        check_valid_args files false ex out (pre ++ ans :: rest)
          = (List.replicate (pre.length + 1) (Event.promptOverwrite out), rest,
             Term.raised Err.valueErrorInvalidInput))
    ∧ (∀ (files : List String) (ex : Bool) (out : String), out ∈ files →
        check_valid_args files false ex out []
          = ([Event.promptOverwrite out], [], Term.blocked)) := by
  constructor
  · intro files ex out hout pre hpre ans rest hans
    rw [check_valid_args_accept files false ex out hout pre hpre ans rest hans]
    simp
  · intro files ex out hout
    exact check_valid_args_blocked files false ex out hout

/-- C10 witness: existing output, non-directory input path, answer "y". -/
theorem claim_C10_witness :
    check_valid_args ["o.pdf"] false true "o.pdf" ["y"]
      = ([Event.promptOverwrite "o.pdf"], [], Term.raised Err.valueErrorInvalidInput) := by
  simpa using claim_C10.1 ["o.pdf"] true "o.pdf" (by decide) [] (by intro s hs; simp at hs)
    "y" [] (Or.inl (by decide))
